import Mathlib

/-!
Shallow embedding of the library seat-reservation core:
data model from `types.ts`, store and services from `services/mockDb.ts`,
assistant gateway fallback logic from `services/geminiService.ts`.

Modelling conventions:
* ISO-8601 timestamp strings are modelled as natural numbers (milliseconds
  since the epoch); `Date.now()` becomes an explicit `now : Nat` argument.
* `async` and the artificial `delay(ms)` calls are dropped: every operation
  is a pure function of the store (and `now`), returning the new store.
* `throw new Error(msg)` becomes `Except.error msg`.
* The module-level mutable variables `dbSeats`, `dbReservations`, `dbUsers`
  become the fields of a `Store` value threaded through the operations.
-/

namespace SeatRes

/-- `ReservationStatus` enum from `types.ts`. -/
inductive ReservationStatus where
  | ACTIVE
  | CANCELED
  | EXPIRED
deriving DecidableEq, Repr

/-- Computed seat status union type from `types.ts`:
`'AVAILABLE' | 'OCCUPIED' | 'SELECTED'`. -/
inductive SeatStatus where
  | AVAILABLE
  | OCCUPIED
  | SELECTED
deriving DecidableEq, Repr

/-- `User` interface from `types.ts`. -/
structure User where
  id : String
  email : String
  name : String
deriving DecidableEq, Repr

/-- `Seat` interface from `types.ts`.  The optional `status` field is the
computed, non-persisted seat status filled in by `SeatService.getSeats`. -/
structure Seat where
  id : String
  library_id : String
  label : String
  floor : Nat
  is_active : Bool
  status : Option SeatStatus
deriving DecidableEq, Repr

/-- `Reservation` interface from `types.ts`. -/
structure Reservation where
  id : String
  seat_id : String
  user_id : String
  status : ReservationStatus
  start_at : Nat
  end_at : Option Nat
  canceled_at : Option Nat
deriving DecidableEq, Repr

/-- The in-memory store of `mockDb.ts`: the three module-level arrays
`dbSeats`, `dbReservations`, `dbUsers`. -/
structure Store where
  dbSeats : List Seat
  dbReservations : List Reservation
  dbUsers : List User
deriving DecidableEq, Repr

/-- `i.toString().padStart(2, '0')` from `generateSeats` (pad on the left
with `'0'` until the length is at least 2). -/
def padStart2 (s : String) : String :=
  if s.length ≥ 2 then s else if s.length = 1 then "0" ++ s else "00" ++ s

/-- `generateSeats` from `mockDb.ts`: floors `[1, 2, 3]`, 20 seats per
floor, ids `seat-<floor>-<i>`, labels `<floor>F-<i padded to 2>`. -/
def generateSeats : List Seat :=
  ([1, 2, 3] : List Nat).flatMap (fun floor =>
    (List.range 20).map (fun k =>
      let i := k + 1
      { id := "seat-" ++ toString floor ++ "-" ++ toString i
        library_id := "lib-001"
        label := toString floor ++ "F-" ++ padStart2 (toString i)
        floor := floor
        is_active := true
        status := none }))

/-- The initial module state of `mockDb.ts`: generated seats, no
reservations, and the single demo user. -/
def initStore : Store :=
  { dbSeats := generateSeats
    dbReservations := []
    dbUsers := [{ id := "user-1", email := "student@univ.ac.kr", name := "Student Demo" }] }

/-- `SeatService.getSeats(floor?)` from `mockDb.ts`.  The filter predicate
translates the JS condition `floor ? s.floor === floor : true`: an absent
floor argument, and also the falsy floor value `0`, disable the filter. -/
def getSeats (floor : Option Nat) (s : Store) : List Seat :=
  let activeReservations :=
    s.dbReservations.filter (fun r => decide (r.status = ReservationStatus.ACTIVE))
  let occupiedSeatIds := activeReservations.map (fun r => r.seat_id)
  (s.dbSeats.filter (fun st =>
      match floor with
      | some f => if f = 0 then true else decide (st.floor = f)
      | none => true)).map
    (fun st =>
      { st with
          status := some (if st.id ∈ occupiedSeatIds then SeatStatus.OCCUPIED
                          else SeatStatus.AVAILABLE) })

/-- `ReservationService.getActiveReservation(userId)` from `mockDb.ts`. -/
def getActiveReservation (userId : String) (s : Store) : Option Reservation :=
  s.dbReservations.find?
    (fun r => decide (r.user_id = userId) && decide (r.status = ReservationStatus.ACTIVE))

/-- `ReservationService.getHistory(userId)` from `mockDb.ts`: the user's
reservations sorted by the comparator
`(a, b) => getTime(b.start_at) - getTime(a.start_at)` (descending by start
time; JS `Array.prototype.sort` is stable, as is `List.mergeSort`). -/
def getHistory (userId : String) (s : Store) : List Reservation :=
  (s.dbReservations.filter (fun r => decide (r.user_id = userId))).mergeSort
    (fun a b => decide (b.start_at ≤ a.start_at))

/-- Error message of the user-conflict check in `ReservationService.create`. -/
def userConflictMsg : String :=
  "You already have an active reservation. Please cancel it first."

/-- Error message of the seat-conflict check in `ReservationService.create`. -/
def seatConflictMsg : String :=
  "This seat is already reserved by another user."

/-- `ReservationService.create(userId, seatId)` from `mockDb.ts`:
check for an active reservation of the user, then for an active
reservation on the seat, then append a new `ACTIVE` reservation with
`start_at = now` and `end_at = now + 4h` (in milliseconds). -/
def create (now : Nat) (userId seatId : String) (s : Store) :
    Except String (Reservation × Store) :=
  match s.dbReservations.find?
      (fun r => decide (r.user_id = userId) && decide (r.status = ReservationStatus.ACTIVE)) with
  | some _ => Except.error userConflictMsg
  | none =>
    match s.dbReservations.find?
        (fun r => decide (r.seat_id = seatId) && decide (r.status = ReservationStatus.ACTIVE)) with
    | some _ => Except.error seatConflictMsg
    | none =>
      let newReservation : Reservation :=
        { id := "res-" ++ toString now
          seat_id := seatId
          user_id := userId
          status := ReservationStatus.ACTIVE
          start_at := now
          end_at := some (now + 4 * 60 * 60 * 1000)
          canceled_at := none }
      Except.ok (newReservation, { s with dbReservations := s.dbReservations ++ [newReservation] })

/-- The `findIndex` + in-place element replacement of
`ReservationService.cancel`: replace the first reservation whose id
matches with a copy whose status is `CANCELED` and whose `canceled_at` is
stamped with `now`; all other elements are untouched. -/
def cancelInList (now : Nat) (reservationId : String) : List Reservation → List Reservation
  | [] => []
  | r :: rs =>
    if r.id = reservationId then
      { r with status := ReservationStatus.CANCELED, canceled_at := some now } :: rs
    else
      r :: cancelInList now reservationId rs

/-- `ReservationService.cancel(reservationId)` from `mockDb.ts`.  When no
reservation has the given id, `findIndex` returns `-1` and nothing
happens. -/
def cancel (now : Nat) (reservationId : String) (s : Store) : Store :=
  { s with dbReservations := cancelInList now reservationId s.dbReservations }

/-- `email.split('@')[0]` from `AuthService.login`, as structural recursion
on the character list: the prefix of the string before the first `'@'`
(the whole string when no `'@'` occurs). -/
def localPartChars : List Char → List Char
  | [] => []
  | c :: cs => if c = '@' then [] else c :: localPartChars cs

/-- The local part of an email: `email.split('@')[0]`. -/
def localPart (email : String) : String := String.mk (localPartChars email.data)

/-- `AuthService.login(email)` from `mockDb.ts`: find an existing user by
email, or auto-provision one with id `user-<now>` and the email's local
part as display name. -/
def login (now : Nat) (email : String) (s : Store) : User × Store :=
  match s.dbUsers.find? (fun u => decide (u.email = email)) with
  | some u => (u, s)
  | none =>
    let user : User := { id := "user-" ++ toString now, email := email, name := localPart email }
    (user, { s with dbUsers := s.dbUsers ++ [user] })

/-- Fallback reply of `sendMessageToGemini` when no API key is configured. -/
def offlineFallbackMsg : String := "I'm sorry, I'm currently offline (API Key missing)."

/-- Fallback reply of `sendMessageToGemini` when the external call throws. -/
def networkFallbackMsg : String :=
  "I'm having trouble connecting to the library network. Please try again later."

/-- One `{role, parts: [{text}]}` turn of the chat history passed to
`sendMessageToGemini`. -/
structure ChatTurn where
  role : String
  text : String
deriving DecidableEq, Repr

/-- `sendMessageToGemini(message, history)` from `geminiService.ts`.
`aiClient` is null exactly when the configured `apiKey` is the empty
string, so the `!aiClient` guard is modelled as `apiKey = ""`.  The
external `generateContent` call is outside this repository; its outcome is
passed in as a parameter: `Except.error e` models a thrown exception
(caught by the `try`/`catch`), `Except.ok t` models a reply with text `t`. -/
def sendMessageToGemini (apiKey : String) (callOutcome : Except String String)
    (message : String) (history : List ChatTurn) : String :=
  if apiKey = "" then offlineFallbackMsg
  else
    match callOutcome with
    | Except.error _ => networkFallbackMsg
    | Except.ok text => text

/-- One store operation, for reasoning about reachable states.  The read
operations (`getSeats`, `getActiveReservation`, `getHistory`) are included
for completeness; they do not touch the store. -/
inductive Op where
  | login (now : Nat) (email : String)
  | getSeats (floor : Option Nat)
  | getActiveReservation (userId : String)
  | getHistory (userId : String)
  | create (now : Nat) (userId seatId : String)
  | cancel (now : Nat) (reservationId : String)
deriving DecidableEq, Repr

/-- The effect of one operation on the store.  A failing `create` throws,
leaving the store unchanged (the push is never reached); reads return data
without mutating anything. -/
def applyOp (s : Store) : Op → Store
  | Op.login now email => (login now email s).2
  | Op.getSeats _ => s
  | Op.getActiveReservation _ => s
  | Op.getHistory _ => s
  | Op.create now userId seatId =>
    match create now userId seatId s with
    | Except.ok (_, s') => s'
    | Except.error _ => s
  | Op.cancel now rid => cancel now rid s

/-- Run a sequence of operations from a store. -/
def applyOps (s : Store) (ops : List Op) : Store := ops.foldl applyOp s

/-- Any two distinct `ACTIVE` reservations in the list belong to distinct
users. -/
def activeUserUnique (l : List Reservation) : Prop :=
  (l.filter (fun r => decide (r.status = ReservationStatus.ACTIVE))).Pairwise
    (fun a b => a.user_id ≠ b.user_id)

/-- Any two distinct `ACTIVE` reservations in the list sit on distinct
seats. -/
def activeSeatUnique (l : List Reservation) : Prop :=
  (l.filter (fun r => decide (r.status = ReservationStatus.ACTIVE))).Pairwise
    (fun a b => a.seat_id ≠ b.seat_id)

/-- `login` never touches the reservation list (both branches copy it). -/
theorem login_dbReservations (now : Nat) (email : String) (s : Store) :
    ((login now email s).2).dbReservations = s.dbReservations := by
  unfold login
  cases s.dbUsers.find? (fun u => decide (u.email = email)) <;> rfl

/-- When no reservation matches the id, `findIndex` returns `-1` and the
list is returned unchanged. -/
theorem cancelInList_eq_of_no_match (now : Nat) (rid : String) (l : List Reservation)
    (h : ∀ r ∈ l, r.id ≠ rid) : cancelInList now rid l = l := by
  induction l with
  | nil => rfl
  | cons r rs ih =>
    have hr : r.id ≠ rid := h r (List.mem_cons_self r rs)
    simp only [cancelInList, if_neg hr]
    rw [ih (fun x hx => h x (List.mem_cons_of_mem r hx))]

/-- Decomposition of `cancelInList` at the first matching reservation:
only that element is replaced, everything before and after is untouched. -/
theorem cancelInList_split (now : Nat) (rid : String) (l₁ : List Reservation)
    (r : Reservation) (l₂ : List Reservation)
    (h₁ : ∀ x ∈ l₁, x.id ≠ rid) (hr : r.id = rid) :
    cancelInList now rid (l₁ ++ r :: l₂) =
      l₁ ++ { r with status := ReservationStatus.CANCELED, canceled_at := some now } :: l₂ := by
  induction l₁ with
  | nil => simp only [List.nil_append, cancelInList, if_pos hr]
  | cons x xs ih =>
    have hx : x.id ≠ rid := h₁ x (List.mem_cons_self x xs)
    have ih' := ih (fun y hy => h₁ y (List.mem_cons_of_mem x hy))
    simp only [List.cons_append, cancelInList, if_neg hx]
    exact congrArg (List.cons x) ih'

/-- Cancelling can only shrink the set of `ACTIVE` reservations: the
filtered actives of the result form a sublist of the filtered actives of
the input. -/
theorem cancelInList_filter_active_sublist (now : Nat) (rid : String) (l : List Reservation) :
    ((cancelInList now rid l).filter
        (fun r => decide (r.status = ReservationStatus.ACTIVE))).Sublist
      (l.filter (fun r => decide (r.status = ReservationStatus.ACTIVE))) := by
  induction l with
  | nil => simp [cancelInList]
  | cons r rs ih =>
    simp only [cancelInList]
    by_cases hid : r.id = rid
    · rw [if_pos hid]
      have hdrop :
          List.filter (fun x => decide (x.status = ReservationStatus.ACTIVE))
              ({ r with status := ReservationStatus.CANCELED, canceled_at := some now } :: rs) =
            List.filter (fun x => decide (x.status = ReservationStatus.ACTIVE)) rs := by
        simp [List.filter_cons]
      rw [hdrop, List.filter_cons]
      by_cases hact : decide (r.status = ReservationStatus.ACTIVE) = true
      · rw [if_pos hact]
        exact List.Sublist.cons r (List.Sublist.refl _)
      · rw [if_neg hact]
    · rw [if_neg hid]
      rw [List.filter_cons, List.filter_cons]
      by_cases hact : decide (r.status = ReservationStatus.ACTIVE) = true
      · rw [if_pos hact, if_pos hact]
        exact List.Sublist.cons₂ r ih
      · rw [if_neg hact, if_neg hact]
        exact ih

/-- Cancelling never introduces the `EXPIRED` status. -/
theorem cancelInList_no_expired (now : Nat) (rid : String) (l : List Reservation)
    (h : ∀ x ∈ l, x.status ≠ ReservationStatus.EXPIRED) :
    ∀ x ∈ cancelInList now rid l, x.status ≠ ReservationStatus.EXPIRED := by
  induction l with
  | nil =>
    intro x hx
    simp [cancelInList] at hx
  | cons r rs ih =>
    intro x hx
    simp only [cancelInList] at hx
    by_cases hid : r.id = rid
    · rw [if_pos hid] at hx
      rcases List.mem_cons.mp hx with h1 | h2
      · subst h1; simp
      · exact h x (List.mem_cons_of_mem r h2)
    · rw [if_neg hid] at hx
      rcases List.mem_cons.mp hx with h1 | h2
      · subst h1; exact h _ (List.mem_cons_self _ rs)
      · exact ih (fun y hy => h y (List.mem_cons_of_mem r hy)) x h2

/-- The first `ACTIVE` reservation of a user survives a `cancel` aimed at a
different reservation id, and is still the first one found. -/
theorem find?_userActive_cancelInList (now : Nat) (rid userId : String)
    (l : List Reservation) (r : Reservation)
    (h : l.find?
        (fun x => decide (x.user_id = userId) && decide (x.status = ReservationStatus.ACTIVE)) =
      some r)
    (hne : r.id ≠ rid) :
    (cancelInList now rid l).find?
      (fun x => decide (x.user_id = userId) && decide (x.status = ReservationStatus.ACTIVE)) =
      some r := by
  induction l with
  | nil => simp at h
  | cons x xs ih =>
    by_cases px : ((fun y : Reservation =>
        decide (y.user_id = userId) && decide (y.status = ReservationStatus.ACTIVE)) x) = true
    · rw [@List.find?_cons_of_pos Reservation
        (fun y => decide (y.user_id = userId) && decide (y.status = ReservationStatus.ACTIVE))
        x xs px] at h
      have hxr : x = r := by injection h
      obtain rfl := hxr
      simp only [cancelInList, if_neg hne]
      exact @List.find?_cons_of_pos Reservation
        (fun y => decide (y.user_id = userId) && decide (y.status = ReservationStatus.ACTIVE))
        x (cancelInList now rid xs) px
    · rw [@List.find?_cons_of_neg Reservation
        (fun y => decide (y.user_id = userId) && decide (y.status = ReservationStatus.ACTIVE))
        x xs px] at h
      simp only [cancelInList]
      by_cases hid : x.id = rid
      · rw [if_pos hid]
        have hneg : ¬ ((fun y : Reservation =>
            decide (y.user_id = userId) && decide (y.status = ReservationStatus.ACTIVE))
            { x with status := ReservationStatus.CANCELED, canceled_at := some now }) = true := by
          simp
        rw [@List.find?_cons_of_neg Reservation
          (fun y => decide (y.user_id = userId) && decide (y.status = ReservationStatus.ACTIVE))
          _ xs hneg]
        exact h
      · rw [if_neg hid]
        rw [@List.find?_cons_of_neg Reservation
          (fun y => decide (y.user_id = userId) && decide (y.status = ReservationStatus.ACTIVE))
          x (cancelInList now rid xs) px]
        exact ih h

/-- Transport of an invariant along a sequence of operations. -/
theorem inv_applyOps (P : Store → Prop) (hstep : ∀ s op, P s → P (applyOp s op)) :
    ∀ ops s, P s → P (applyOps s ops) := by
  intro ops
  induction ops with
  | nil => intro s hs; exact hs
  | cons op ops ih => intro s hs; exact ih (applyOp s op) (hstep s op hs)

/-- Inversion of a successful `create`: both conflict checks came back
empty, the returned reservation is the freshly built one, and the result
store is the input store with that reservation pushed at the end. -/
theorem create_ok_inv (now : Nat) (userId seatId : String) (s : Store) (r : Reservation)
    (s' : Store) (h : create now userId seatId s = Except.ok (r, s')) :
    s.dbReservations.find?
        (fun x => decide (x.user_id = userId) && decide (x.status = ReservationStatus.ACTIVE)) =
      none ∧
    s.dbReservations.find?
        (fun x => decide (x.seat_id = seatId) && decide (x.status = ReservationStatus.ACTIVE)) =
      none ∧
    r = { id := "res-" ++ toString now, seat_id := seatId, user_id := userId,
          status := ReservationStatus.ACTIVE, start_at := now,
          end_at := some (now + 4 * 60 * 60 * 1000), canceled_at := none } ∧
    s' = { s with dbReservations := s.dbReservations ++ [r] } := by
  unfold create at h
  cases h1 : s.dbReservations.find?
      (fun x => decide (x.user_id = userId) && decide (x.status = ReservationStatus.ACTIVE)) with
  | some x => rw [h1] at h; cases h
  | none =>
    rw [h1] at h
    cases h2 : s.dbReservations.find?
        (fun x => decide (x.seat_id = seatId) && decide (x.status = ReservationStatus.ACTIVE)) with
    | some x => rw [h2] at h; cases h
    | none =>
      rw [h2] at h
      simp only [Except.ok.injEq, Prod.mk.injEq] at h
      obtain ⟨hr, hs⟩ := h
      subst hr
      exact ⟨rfl, rfl, rfl, hs.symm⟩

/-- Appending a fresh `ACTIVE` reservation whose key clashes with no
existing active reservation preserves pairwise key-distinctness of the
active reservations. -/
theorem pairwise_filter_append_active (key : Reservation → String)
    (l : List Reservation) (r : Reservation)
    (hpw : (l.filter (fun x => decide (x.status = ReservationStatus.ACTIVE))).Pairwise
      (fun a b => key a ≠ key b))
    (hnone : ∀ x ∈ l, x.status = ReservationStatus.ACTIVE → key x ≠ key r) :
    ((l ++ [r]).filter (fun x => decide (x.status = ReservationStatus.ACTIVE))).Pairwise
      (fun a b => key a ≠ key b) := by
  rw [List.filter_append]
  refine List.pairwise_append.mpr ⟨hpw, ?_, ?_⟩
  · by_cases hr : decide (r.status = ReservationStatus.ACTIVE) = true
    · rw [List.filter_cons, if_pos hr]
      simp
    · rw [List.filter_cons, if_neg hr]
      simp
  · intro a ha b hb
    have ha' := List.mem_filter.mp ha
    have hb' := List.mem_filter.mp hb
    have hbr : b = r := List.mem_singleton.mp hb'.1
    subst hbr
    exact hnone a ha'.1 (of_decide_eq_true ha'.2)

/-- A list that is pairwise distinct on a key has at most one element with
any given key value. -/
theorem length_filter_le_one_of_pairwise (key : Reservation → String) (k : String) :
    ∀ fl : List Reservation, fl.Pairwise (fun a b => key a ≠ key b) →
      (fl.filter (fun r => decide (key r = k))).length ≤ 1 := by
  intro fl
  induction fl with
  | nil => intro _; simp
  | cons a tl ih =>
    intro hpw
    rw [List.filter_cons]
    by_cases ha : decide (key a = k) = true
    · rw [if_pos ha]
      have hak : key a = k := of_decide_eq_true ha
      have htl : tl.filter (fun r => decide (key r = k)) = [] := by
        refine List.filter_eq_nil_iff.mpr ?_
        intro b hb hc
        exact (List.pairwise_cons.mp hpw).1 b hb (hak.trans (of_decide_eq_true hc).symm)
      rw [htl]
      simp
    · rw [if_neg ha]
      exact ih (List.pairwise_cons.mp hpw).2

/-- Both active-uniqueness invariants are preserved by every operation. -/
theorem inv_step (s : Store) (op : Op)
    (h : activeUserUnique s.dbReservations ∧ activeSeatUnique s.dbReservations) :
    activeUserUnique (applyOp s op).dbReservations ∧
      activeSeatUnique (applyOp s op).dbReservations := by
  simp only [activeUserUnique, activeSeatUnique] at h ⊢
  obtain ⟨hu, hsi⟩ := h
  cases op with
  | login now email =>
    simp only [applyOp]
    rw [login_dbReservations]
    exact ⟨hu, hsi⟩
  | getSeats floor => exact ⟨hu, hsi⟩
  | getActiveReservation userId => exact ⟨hu, hsi⟩
  | getHistory userId => exact ⟨hu, hsi⟩
  | create now userId seatId =>
    simp only [applyOp]
    split
    · next a s' heq =>
      obtain ⟨h1, h2, hres, hstore⟩ := create_ok_inv now userId seatId s a s' heq
      subst hstore
      constructor
      · refine pairwise_filter_append_active (fun x => x.user_id) s.dbReservations a hu ?_
        intro x hx hact hkey
        have hfind := List.find?_eq_none.mp h1 x hx
        simp only [Bool.and_eq_true, decide_eq_true_eq] at hfind
        refine hfind ⟨?_, hact⟩
        have hkey' : x.user_id = a.user_id := hkey
        rw [hres] at hkey'
        exact hkey'
      · refine pairwise_filter_append_active (fun x => x.seat_id) s.dbReservations a hsi ?_
        intro x hx hact hkey
        have hfind := List.find?_eq_none.mp h2 x hx
        simp only [Bool.and_eq_true, decide_eq_true_eq] at hfind
        refine hfind ⟨?_, hact⟩
        have hkey' : x.seat_id = a.seat_id := hkey
        rw [hres] at hkey'
        exact hkey'
    · exact ⟨hu, hsi⟩
  | cancel now rid =>
    simp only [applyOp, cancel]
    exact ⟨List.Pairwise.sublist (cancelInList_filter_active_sublist now rid s.dbReservations) hu,
      List.Pairwise.sublist (cancelInList_filter_active_sublist now rid s.dbReservations) hsi⟩

/-- C2: in every store state reachable from the initial state by any
sequence of operations, at most one `ACTIVE` reservation references any
given user, and at most one `ACTIVE` reservation references any given
seat. -/
theorem active_uniqueness_reachable (ops : List Op) (userId seatId : String) :
    ((applyOps initStore ops).dbReservations.filter
        (fun r => decide (r.status = ReservationStatus.ACTIVE) &&
          decide (r.user_id = userId))).length ≤ 1 ∧
    ((applyOps initStore ops).dbReservations.filter
        (fun r => decide (r.status = ReservationStatus.ACTIVE) &&
          decide (r.seat_id = seatId))).length ≤ 1 := by
  have hinv : activeUserUnique (applyOps initStore ops).dbReservations ∧
      activeSeatUnique (applyOps initStore ops).dbReservations := by
    refine inv_applyOps
      (fun st => activeUserUnique st.dbReservations ∧ activeSeatUnique st.dbReservations)
      (fun st op h => inv_step st op h) ops initStore ?_
    constructor <;> simp [activeUserUnique, activeSeatUnique, initStore]
  obtain ⟨hu, hsi⟩ := hinv
  constructor
  · have hkey := length_filter_le_one_of_pairwise (fun x => x.user_id) userId
      ((applyOps initStore ops).dbReservations.filter
        (fun x => decide (x.status = ReservationStatus.ACTIVE))) hu
    rw [List.filter_filter] at hkey
    have hcongr : (applyOps initStore ops).dbReservations.filter
        (fun r => decide (r.status = ReservationStatus.ACTIVE) && decide (r.user_id = userId)) =
        (applyOps initStore ops).dbReservations.filter
        (fun a => decide (a.user_id = userId) && decide (a.status = ReservationStatus.ACTIVE)) :=
      List.filter_congr (fun a _ => Bool.and_comm _ _)
    rw [hcongr]
    exact hkey
  · have hkey := length_filter_le_one_of_pairwise (fun x => x.seat_id) seatId
      ((applyOps initStore ops).dbReservations.filter
        (fun x => decide (x.status = ReservationStatus.ACTIVE))) hsi
    rw [List.filter_filter] at hkey
    have hcongr : (applyOps initStore ops).dbReservations.filter
        (fun r => decide (r.status = ReservationStatus.ACTIVE) && decide (r.seat_id = seatId)) =
        (applyOps initStore ops).dbReservations.filter
        (fun a => decide (a.seat_id = seatId) && decide (a.status = ReservationStatus.ACTIVE)) :=
      List.filter_congr (fun a _ => Bool.and_comm _ _)
    rw [hcongr]
    exact hkey

/-- C1: if the user already holds an `ACTIVE` reservation, `create` fails
with the user-conflict error regardless of the target seat (the user check
runs first and short-circuits); otherwise, if the seat has an `ACTIVE`
reservation, `create` fails with the seat-conflict error; in either
failure case the store is left unchanged. -/
theorem create_conflict_spec (now : Nat) (userId seatId : String) (s : Store) :
    ((∃ r ∈ s.dbReservations, r.user_id = userId ∧ r.status = ReservationStatus.ACTIVE) →
      create now userId seatId s = Except.error userConflictMsg ∧
      applyOp s (Op.create now userId seatId) = s) ∧
    ((∀ r ∈ s.dbReservations, ¬(r.user_id = userId ∧ r.status = ReservationStatus.ACTIVE)) →
      (∃ r ∈ s.dbReservations, r.seat_id = seatId ∧ r.status = ReservationStatus.ACTIVE) →
      create now userId seatId s = Except.error seatConflictMsg ∧
      applyOp s (Op.create now userId seatId) = s) := by
  constructor
  · intro hex
    cases hfind : s.dbReservations.find?
        (fun r => decide (r.user_id = userId) && decide (r.status = ReservationStatus.ACTIVE)) with
    | none =>
      obtain ⟨r, hr, hru, hrs⟩ := hex
      have := List.find?_eq_none.mp hfind r hr
      simp [hru, hrs] at this
    | some x =>
      have hcr : create now userId seatId s = Except.error userConflictMsg := by
        unfold create
        rw [hfind]
      refine ⟨hcr, ?_⟩
      simp only [applyOp]
      rw [hcr]
  · intro hall hex
    have h1 : s.dbReservations.find?
        (fun r => decide (r.user_id = userId) && decide (r.status = ReservationStatus.ACTIVE)) =
        none := by
      refine List.find?_eq_none.mpr ?_
      intro x hx hc
      simp only [Bool.and_eq_true, decide_eq_true_eq] at hc
      exact hall x hx hc
    cases hfind : s.dbReservations.find?
        (fun r => decide (r.seat_id = seatId) && decide (r.status = ReservationStatus.ACTIVE)) with
    | none =>
      obtain ⟨r, hr, hru, hrs⟩ := hex
      have := List.find?_eq_none.mp hfind r hr
      simp [hru, hrs] at this
    | some x =>
      have hcr : create now userId seatId s = Except.error seatConflictMsg := by
        unfold create
        rw [h1, hfind]
      refine ⟨hcr, ?_⟩
      simp only [applyOp]
      rw [hcr]

/-- A store with one `ACTIVE` reservation (`user-1` on `seat-1-1`), used
as a concrete evaluation point. -/
def wStoreA : Store :=
  { dbSeats := generateSeats
    dbReservations :=
      [{ id := "res-1", seat_id := "seat-1-1", user_id := "user-1",
         status := ReservationStatus.ACTIVE, start_at := 1, end_at := some 14400001,
         canceled_at := none }]
    dbUsers := [{ id := "user-1", email := "student@univ.ac.kr", name := "Student Demo" }] }

/-- Witness for C1: at a concrete store both conflict branches fire. -/
theorem create_conflict_spec_witness :
    create 9 "user-1" "seat-1-2" wStoreA = Except.error userConflictMsg ∧
    create 9 "user-2" "seat-1-1" wStoreA = Except.error seatConflictMsg :=
  ⟨((create_conflict_spec 9 "user-1" "seat-1-2" wStoreA).1 (by decide)).1,
   ((create_conflict_spec 9 "user-2" "seat-1-1" wStoreA).2 (by decide) (by decide)).1⟩

/-- No single operation introduces the `EXPIRED` status. -/
theorem no_expired_step (s : Store) (op : Op)
    (h : ∀ r ∈ s.dbReservations, r.status ≠ ReservationStatus.EXPIRED) :
    ∀ r ∈ (applyOp s op).dbReservations, r.status ≠ ReservationStatus.EXPIRED := by
  cases op with
  | login now email =>
    simp only [applyOp]
    rw [login_dbReservations]
    exact h
  | getSeats floor => exact h
  | getActiveReservation userId => exact h
  | getHistory userId => exact h
  | create now userId seatId =>
    simp only [applyOp]
    split
    · next a s' heq =>
      obtain ⟨h1, h2, hres, hstore⟩ := create_ok_inv now userId seatId s a s' heq
      subst hstore
      intro r hr
      rcases List.mem_append.mp hr with hmem | hmem
      · exact h r hmem
      · have hra : r = a := List.mem_singleton.mp hmem
        subst hra
        simp [hres]
    · exact h
  | cancel now rid =>
    simp only [applyOp, cancel]
    exact cancelInList_no_expired now rid s.dbReservations h

/-- C7: no operation ever assigns the `EXPIRED` status — in every store
state reachable from the initial state, no reservation is `EXPIRED`. -/
theorem no_expired_reachable (ops : List Op) :
    ∀ r ∈ (applyOps initStore ops).dbReservations,
      r.status ≠ ReservationStatus.EXPIRED := by
  refine inv_applyOps
    (fun st => ∀ r ∈ st.dbReservations, r.status ≠ ReservationStatus.EXPIRED)
    (fun st op h => no_expired_step st op h) ops initStore ?_
  intro r hr
  simp [initStore] at hr

/-- Witness for C7: the reservation created by a concrete `create` is not
`EXPIRED`. -/
theorem no_expired_reachable_witness :
    ({ id := "res-3", seat_id := "seat-1-1", user_id := "user-1",
       status := ReservationStatus.ACTIVE, start_at := 3,
       end_at := some (3 + 4 * 60 * 60 * 1000), canceled_at := none } : Reservation).status ≠
      ReservationStatus.EXPIRED :=
  no_expired_reachable [Op.create 3 "user-1" "seat-1-1"] _ (by decide)

/-- The first `ACTIVE` reservation found for a user survives any single
operation other than a `cancel` aimed at its own id. -/
theorem getActive_preserved_step (s : Store) (userId : String) (r : Reservation) (op : Op)
    (h : getActiveReservation userId s = some r)
    (hop : ∀ t : Nat, op ≠ Op.cancel t r.id) :
    getActiveReservation userId (applyOp s op) = some r := by
  cases op with
  | login now email =>
    unfold getActiveReservation at h ⊢
    simp only [applyOp]
    rw [login_dbReservations]
    exact h
  | getSeats floor => exact h
  | getActiveReservation u => exact h
  | getHistory u => exact h
  | create now u2 seat2 =>
    simp only [applyOp]
    split
    · next a s' heq =>
      obtain ⟨h1, h2, hres, hstore⟩ := create_ok_inv now u2 seat2 s a s' heq
      subst hstore
      unfold getActiveReservation at h ⊢
      rw [List.find?_append, h]
      rfl
    · exact h
  | cancel now rid =>
    simp only [applyOp, cancel]
    unfold getActiveReservation at h ⊢
    refine find?_userActive_cancelInList now rid userId s.dbReservations r h ?_
    intro hc
    exact hop now (by rw [hc])

/-- The first `ACTIVE` reservation found for a user survives any sequence
of operations that never cancels its id. -/
theorem getActive_preserved_ops (userId : String) (r : Reservation) :
    ∀ (ops : List Op) (s : Store), getActiveReservation userId s = some r →
      (∀ op ∈ ops, ∀ t : Nat, op ≠ Op.cancel t r.id) →
      getActiveReservation userId (applyOps s ops) = some r := by
  intro ops
  induction ops with
  | nil => intro s h _; exact h
  | cons op ops ih =>
    intro s h hops
    exact ih (applyOp s op)
      (getActive_preserved_step s userId r op h (hops op (List.mem_cons_self op ops)))
      (fun o ho t => hops o (List.mem_cons_of_mem op ho) t)

/-- C3: a successful `create` appends and returns a new `ACTIVE`
reservation with `start = now` and `end = now + 4h`, and from then on
`getActiveReservation` returns exactly that reservation through any
sequence of operations that does not cancel it. -/
theorem create_success_spec (now : Nat) (userId seatId : String) (s : Store)
    (r : Reservation) (s' : Store)
    (h : create now userId seatId s = Except.ok (r, s')) :
    r.status = ReservationStatus.ACTIVE ∧ r.start_at = now ∧
    r.end_at = some (now + 4 * 60 * 60 * 1000) ∧
    s'.dbReservations = s.dbReservations ++ [r] ∧
    ∀ ops : List Op, (∀ op ∈ ops, ∀ t : Nat, op ≠ Op.cancel t r.id) →
      getActiveReservation userId (applyOps s' ops) = some r := by
  obtain ⟨h1, h2, hres, hstore⟩ := create_ok_inv now userId seatId s r s' h
  subst hstore
  have hbase : getActiveReservation userId
      { s with dbReservations := s.dbReservations ++ [r] } = some r := by
    unfold getActiveReservation
    rw [List.find?_append, h1]
    have hp : ((fun x : Reservation => decide (x.user_id = userId) &&
        decide (x.status = ReservationStatus.ACTIVE)) r) = true := by
      rw [hres]; simp
    rw [@List.find?_cons_of_pos Reservation
      (fun x => decide (x.user_id = userId) && decide (x.status = ReservationStatus.ACTIVE))
      r [] hp]
    rfl
  exact ⟨by rw [hres], by rw [hres], by rw [hres], rfl,
    fun ops hops => getActive_preserved_ops userId r ops _ hbase hops⟩

/-- The reservation produced by `create 5 "user-1" "seat-1-1"` on the
initial store. -/
def wRes : Reservation :=
  { id := "res-5", seat_id := "seat-1-1", user_id := "user-1",
    status := ReservationStatus.ACTIVE, start_at := 5,
    end_at := some (5 + 4 * 60 * 60 * 1000), canceled_at := none }

/-- The store after that `create`. -/
def wStoreB : Store :=
  { dbSeats := generateSeats
    dbReservations := [wRes]
    dbUsers := [{ id := "user-1", email := "student@univ.ac.kr", name := "Student Demo" }] }

/-- Witness for C3: after the concrete `create`, `getActiveReservation`
returns the created reservation. -/
theorem create_success_spec_witness :
    getActiveReservation "user-1" (applyOps wStoreB []) = some wRes :=
  (create_success_spec 5 "user-1" "seat-1-1" initStore wRes wStoreB rfl).2.2.2.2 []
    (by intro op hop; exact absurd hop (List.not_mem_nil op))

/-- C4: `cancel` never raises (it is total by construction): on a missing
id the store is unchanged; on an existing id the first matching
reservation becomes `CANCELED` with `canceled_at` stamped and every other
reservation untouched; and if that reservation was `ACTIVE`, its seat is
freed — a subsequent `create` on the seat by a user without an active
reservation succeeds. -/
theorem cancel_spec (now : Nat) (rid : String) (s : Store) :
    ((∀ r ∈ s.dbReservations, r.id ≠ rid) → cancel now rid s = s) ∧
    (∀ (l₁ : List Reservation) (r : Reservation) (l₂ : List Reservation),
      s.dbReservations = l₁ ++ r :: l₂ → (∀ x ∈ l₁, x.id ≠ rid) → r.id = rid →
      (cancel now rid s).dbReservations =
        l₁ ++ { r with status := ReservationStatus.CANCELED, canceled_at := some now } :: l₂) ∧
    (∀ (l₁ : List Reservation) (r : Reservation) (l₂ : List Reservation) (u2 : String)
        (now2 : Nat),
      s.dbReservations = l₁ ++ r :: l₂ → (∀ x ∈ l₁, x.id ≠ rid) → r.id = rid →
      r.status = ReservationStatus.ACTIVE →
      activeSeatUnique s.dbReservations →
      (∀ x ∈ s.dbReservations, ¬(x.user_id = u2 ∧ x.status = ReservationStatus.ACTIVE)) →
      (create now2 u2 r.seat_id (cancel now rid s)).isOk = true) := by
  refine ⟨?_, ?_, ?_⟩
  · intro hnone
    unfold cancel
    rw [cancelInList_eq_of_no_match now rid s.dbReservations hnone]
  · intro l₁ r l₂ hsplit hl₁ hr
    show cancelInList now rid s.dbReservations = _
    rw [hsplit]
    exact cancelInList_split now rid l₁ r l₂ hl₁ hr
  · intro l₁ r l₂ u2 now2 hsplit hl₁ hr hract hseatuniq hnouser
    have hcanc : (cancel now rid s).dbReservations =
        l₁ ++ { r with status := ReservationStatus.CANCELED, canceled_at := some now } :: l₂ := by
      show cancelInList now rid s.dbReservations = _
      rw [hsplit]
      exact cancelInList_split now rid l₁ r l₂ hl₁ hr
    have huser : (cancel now rid s).dbReservations.find?
        (fun x => decide (x.user_id = u2) && decide (x.status = ReservationStatus.ACTIVE)) =
        none := by
      rw [hcanc]
      refine List.find?_eq_none.mpr ?_
      intro x hx hc
      simp only [Bool.and_eq_true, decide_eq_true_eq] at hc
      rcases List.mem_append.mp hx with hx1 | hx2
      · exact hnouser x (by rw [hsplit]; exact List.mem_append_left _ hx1) hc
      · rcases List.mem_cons.mp hx2 with hx3 | hx4
        · rw [hx3] at hc
          simpa using hc.2
        · exact hnouser x
            (by rw [hsplit]; exact List.mem_append_right _ (List.mem_cons_of_mem r hx4)) hc
    have hsu : (List.filter (fun y => decide (y.status = ReservationStatus.ACTIVE)) l₁ ++
        r :: List.filter (fun y => decide (y.status = ReservationStatus.ACTIVE)) l₂).Pairwise
        (fun a b => a.seat_id ≠ b.seat_id) := by
      have h0 : activeSeatUnique (l₁ ++ r :: l₂) := by rw [← hsplit]; exact hseatuniq
      rw [activeSeatUnique, List.filter_append, List.filter_cons,
        if_pos (decide_eq_true hract)] at h0
      exact h0
    have hseat : (cancel now rid s).dbReservations.find?
        (fun x => decide (x.seat_id = r.seat_id) && decide (x.status = ReservationStatus.ACTIVE)) =
        none := by
      rw [hcanc]
      refine List.find?_eq_none.mpr ?_
      intro x hx hc
      simp only [Bool.and_eq_true, decide_eq_true_eq] at hc
      have hsu' := List.pairwise_append.mp hsu
      rcases List.mem_append.mp hx with hx1 | hx2
      · have hxf : x ∈ List.filter (fun y => decide (y.status = ReservationStatus.ACTIVE)) l₁ :=
          List.mem_filter.mpr ⟨hx1, decide_eq_true hc.2⟩
        exact hsu'.2.2 x hxf r (List.mem_cons_self r _) hc.1
      · rcases List.mem_cons.mp hx2 with hx3 | hx4
        · rw [hx3] at hc
          simpa using hc.2
        · have hxf : x ∈ List.filter (fun y => decide (y.status = ReservationStatus.ACTIVE)) l₂ :=
            List.mem_filter.mpr ⟨hx4, decide_eq_true hc.2⟩
          exact (List.pairwise_cons.mp hsu'.2.1).1 x hxf hc.1.symm
    unfold create
    rw [huser, hseat]
    rfl

/-- Witness for C4: all three parts of `cancel_spec` evaluated at concrete
stores — a missing id is a no-op, an existing id is canceled and stamped,
and the freed seat can be re-created by another user. -/
theorem cancel_spec_witness :
    cancel 7 "res-nope" wStoreB = wStoreB ∧
    (cancel 7 "res-5" wStoreB).dbReservations =
      [{ wRes with status := ReservationStatus.CANCELED, canceled_at := some 7 }] ∧
    (create 8 "user-2" "seat-1-1" (cancel 7 "res-5" wStoreB)).isOk = true :=
  ⟨(cancel_spec 7 "res-nope" wStoreB).1 (by decide),
   (cancel_spec 7 "res-5" wStoreB).2.1 [] wRes [] rfl (by simp) (by decide),
   (cancel_spec 7 "res-5" wStoreB).2.2 [] wRes [] "user-2" 8 rfl (by simp) (by decide)
     (by decide) (by simp [activeSeatUnique, wStoreB, wRes]) (by decide)⟩

/-- C10: `cancel` does not inspect the reservation's current status: the
first reservation matching the id — whatever its status, including one
already `CANCELED` — is replaced by a copy with status `CANCELED` and
`canceled_at` overwritten with the current time; when its stored
`canceled_at` differs from the new stamp, the call is not a no-op. -/
theorem cancel_ignores_status (now : Nat) (rid : String) (s : Store)
    (l₁ : List Reservation) (r : Reservation) (l₂ : List Reservation)
    (hsplit : s.dbReservations = l₁ ++ r :: l₂) (hl₁ : ∀ x ∈ l₁, x.id ≠ rid)
    (hr : r.id = rid) :
    (cancel now rid s).dbReservations =
      l₁ ++ { r with status := ReservationStatus.CANCELED, canceled_at := some now } :: l₂ ∧
    (r.canceled_at ≠ some now → cancel now rid s ≠ s) := by
  have hmain : (cancel now rid s).dbReservations =
      l₁ ++ { r with status := ReservationStatus.CANCELED, canceled_at := some now } :: l₂ := by
    show cancelInList now rid s.dbReservations = _
    rw [hsplit]
    exact cancelInList_split now rid l₁ r l₂ hl₁ hr
  refine ⟨hmain, ?_⟩
  intro hts heq
  have hlists :
      l₁ ++ { r with status := ReservationStatus.CANCELED, canceled_at := some now } :: l₂ =
        l₁ ++ r :: l₂ := by
    rw [← hmain, heq, hsplit]
  have hcons := List.append_cancel_left hlists
  have hhead :
      ({ r with status := ReservationStatus.CANCELED, canceled_at := some now } : Reservation) =
        r := by
    injection hcons
  have hstamp : some now = r.canceled_at := congrArg Reservation.canceled_at hhead
  exact hts hstamp.symm

/-- A store whose single reservation is already `CANCELED` (stamped at
time 2). -/
def wStoreC : Store :=
  { dbSeats := generateSeats
    dbReservations :=
      [{ id := "res-1", seat_id := "seat-1-1", user_id := "user-1",
         status := ReservationStatus.CANCELED, start_at := 1, end_at := some 14400001,
         canceled_at := some 2 }]
    dbUsers := [{ id := "user-1", email := "student@univ.ac.kr", name := "Student Demo" }] }

/-- Witness for C10: re-cancelling the already-canceled reservation
overwrites its timestamp and changes the store. -/
theorem cancel_ignores_status_witness :
    (cancel 9 "res-1" wStoreC).dbReservations =
      [{ id := "res-1", seat_id := "seat-1-1", user_id := "user-1",
         status := ReservationStatus.CANCELED, start_at := 1, end_at := some 14400001,
         canceled_at := some 9 }] ∧
    cancel 9 "res-1" wStoreC ≠ wStoreC := by
  have h := cancel_ignores_status 9 "res-1" wStoreC []
    { id := "res-1", seat_id := "seat-1-1", user_id := "user-1",
      status := ReservationStatus.CANCELED, start_at := 1, end_at := some 14400001,
      canceled_at := some 2 } [] rfl (by simp) (by decide)
  exact ⟨h.1, h.2 (by decide)⟩

/-- Membership in the computed occupied-seat set is exactly the existence
of an `ACTIVE` reservation referencing the seat. -/
theorem occupied_mem_iff (s : Store) (st : Seat) :
    (st.id ∈ (s.dbReservations.filter
        (fun r => decide (r.status = ReservationStatus.ACTIVE))).map (fun r => r.seat_id)) ↔
    ∃ r ∈ s.dbReservations, r.status = ReservationStatus.ACTIVE ∧ r.seat_id = st.id := by
  simp only [List.mem_map, List.mem_filter, decide_eq_true_eq]
  constructor
  · rintro ⟨r, ⟨hr, hact⟩, hid⟩
    exact ⟨r, hr, hact, hid⟩
  · rintro ⟨r, hr, hact, hid⟩
    exact ⟨r, ⟨hr, hact⟩, hid⟩

/-- The seat-annotation map of `getSeats`, rephrased with the existential
occupancy condition of the specification. -/
theorem getSeats_annot (s : Store) (l : List Seat) :
    l.map (fun st =>
      { st with status := some (if st.id ∈ (s.dbReservations.filter
            (fun r => decide (r.status = ReservationStatus.ACTIVE))).map (fun r => r.seat_id)
          then SeatStatus.OCCUPIED else SeatStatus.AVAILABLE) }) =
    l.map (fun st =>
      { st with status := some (if ∃ r ∈ s.dbReservations,
            r.status = ReservationStatus.ACTIVE ∧ r.seat_id = st.id
          then SeatStatus.OCCUPIED else SeatStatus.AVAILABLE) }) := by
  refine List.map_congr_left ?_
  intro st _
  have hif := if_congr (occupied_mem_iff s st)
    (rfl : SeatStatus.OCCUPIED = SeatStatus.OCCUPIED)
    (rfl : SeatStatus.AVAILABLE = SeatStatus.AVAILABLE)
  rw [hif]

/-- C5 counterexample: with floor argument `0` — falsy in JS, so the
filter `floor ? s.floor === floor : true` is disabled — `getSeats` returns
all 60 seats although no seat of floor 0 exists, refuting "returns the
seats of that floor" at this input. -/
theorem getSeats_floor0_counterexample :
    (getSeats (some 0) initStore).length = 60 ∧
    initStore.dbSeats.filter (fun st => decide (st.floor = 0)) = [] := by
  constructor
  · decide
  · decide

/-- C5 (amended): `getSeats` is a pure read; for a nonzero floor it
returns exactly that floor's seats, annotated `OCCUPIED` when some
`ACTIVE` reservation references the seat and `AVAILABLE` otherwise; with
no floor argument — or with the falsy floor argument `0` — it returns all
seats so annotated. -/
theorem getSeats_spec (f : Nat) (s : Store) (hf : f ≠ 0) :
    getSeats (some f) s =
      (s.dbSeats.filter (fun st => decide (st.floor = f))).map (fun st =>
        { st with status := some (if ∃ r ∈ s.dbReservations,
            r.status = ReservationStatus.ACTIVE ∧ r.seat_id = st.id
          then SeatStatus.OCCUPIED else SeatStatus.AVAILABLE) }) ∧
    getSeats none s =
      s.dbSeats.map (fun st =>
        { st with status := some (if ∃ r ∈ s.dbReservations,
            r.status = ReservationStatus.ACTIVE ∧ r.seat_id = st.id
          then SeatStatus.OCCUPIED else SeatStatus.AVAILABLE) }) ∧
    getSeats (some 0) s = getSeats none s ∧
    applyOp s (Op.getSeats (some f)) = s ∧
    applyOp s (Op.getSeats none) = s := by
  refine ⟨?_, ?_, ?_, rfl, rfl⟩
  · unfold getSeats
    simp only [if_neg hf]
    exact getSeats_annot s _
  · unfold getSeats
    simp only [List.filter_true]
    exact getSeats_annot s _
  · unfold getSeats
    simp

/-- Witness for C5: at floor 1 on the initial store the amended statement
applies; in particular `getSeats 0` coincides with the unfiltered query. -/
theorem getSeats_spec_witness :
    getSeats (some 0) initStore = getSeats none initStore :=
  (getSeats_spec 1 initStore (by decide)).2.2.1

/-- C6: `getHistory` returns exactly the reservations whose user
reference equals the given user (a permutation of that filter), sorted by
start time in descending order. -/
theorem getHistory_spec (userId : String) (s : Store) :
    (getHistory userId s).Perm
      (s.dbReservations.filter (fun r => decide (r.user_id = userId))) ∧
    (getHistory userId s).Pairwise (fun a b => b.start_at ≤ a.start_at) := by
  constructor
  · exact List.mergeSort_perm _ _
  · have htrans : ∀ a b c : Reservation,
        (fun a b : Reservation => decide (b.start_at ≤ a.start_at)) a b = true →
        (fun a b : Reservation => decide (b.start_at ≤ a.start_at)) b c = true →
        (fun a b : Reservation => decide (b.start_at ≤ a.start_at)) a c = true := by
      intro a b c hab hbc
      simp only [decide_eq_true_eq] at hab hbc ⊢
      exact le_trans hbc hab
    have htotal : ∀ a b : Reservation,
        ((fun a b : Reservation => decide (b.start_at ≤ a.start_at)) a b ||
          (fun a b : Reservation => decide (b.start_at ≤ a.start_at)) b a) = true := by
      intro a b
      simp only [Bool.or_eq_true, decide_eq_true_eq]
      exact Nat.le_total b.start_at a.start_at
    have hs := List.sorted_mergeSort htrans htotal
      (s.dbReservations.filter (fun r => decide (r.user_id = userId)))
    refine hs.imp ?_
    intro a b hab
    simpa using hab

/-- C8: with no configured credential `sendMessageToGemini` returns the
fixed offline fallback string, and when the external call fails it
returns a fixed fallback string — the caller never observes an error
(the function is total by construction). -/
theorem sendMessage_fallback (apiKey : String) (callOutcome : Except String String)
    (message : String) (history : List ChatTurn) :
    (apiKey = "" →
      sendMessageToGemini apiKey callOutcome message history = offlineFallbackMsg) ∧
    (∀ e : String, callOutcome = Except.error e →
      sendMessageToGemini apiKey callOutcome message history = offlineFallbackMsg ∨
      sendMessageToGemini apiKey callOutcome message history = networkFallbackMsg) := by
  constructor
  · intro hk
    unfold sendMessageToGemini
    rw [if_pos hk]
  · intro e he
    by_cases hk : apiKey = ""
    · left
      unfold sendMessageToGemini
      rw [if_pos hk]
    · right
      unfold sendMessageToGemini
      rw [if_neg hk, he]

/-- Witness for C8: concrete calls with a missing key and with a failing
external call both land on a fixed fallback string. -/
theorem sendMessage_fallback_witness :
    sendMessageToGemini "" (Except.ok "hello") "hi" [] = offlineFallbackMsg ∧
    (sendMessageToGemini "key" (Except.error "boom") "hi" [] = offlineFallbackMsg ∨
      sendMessageToGemini "key" (Except.error "boom") "hi" [] = networkFallbackMsg) :=
  ⟨(sendMessage_fallback "" (Except.ok "hello") "hi" []).1 rfl,
   (sendMessage_fallback "key" (Except.error "boom") "hi" []).2 "boom" rfl⟩

/-- C9: `login` is total (never fails); when some stored user's email
matches it returns such a user and leaves the store unchanged; otherwise
it returns a fresh user with id `user-<now>`, the given email, and the
email's local part (substring before `@`) as display name, appending it
to the user table and touching nothing else. -/
theorem login_spec (now : Nat) (email : String) (s : Store) :
    ((∃ u ∈ s.dbUsers, u.email = email) →
      (login now email s).2 = s ∧ (login now email s).1 ∈ s.dbUsers ∧
      (login now email s).1.email = email) ∧
    ((∀ u ∈ s.dbUsers, u.email ≠ email) →
      (login now email s).1 =
        { id := "user-" ++ toString now, email := email, name := localPart email } ∧
      (login now email s).2.dbUsers = s.dbUsers ++ [(login now email s).1] ∧
      (login now email s).2.dbReservations = s.dbReservations ∧
      (login now email s).2.dbSeats = s.dbSeats) := by
  constructor
  · intro hex
    cases hfind : s.dbUsers.find? (fun u => decide (u.email = email)) with
    | none =>
      obtain ⟨u, hu, hue⟩ := hex
      have := List.find?_eq_none.mp hfind u hu
      simp [hue] at this
    | some u =>
      have hl : login now email s = (u, s) := by
        unfold login
        rw [hfind]
      have hmem : u ∈ s.dbUsers := List.mem_of_find?_eq_some hfind
      have hemail : u.email = email := by
        have := List.find?_some hfind
        simpa using this
      rw [hl]
      exact ⟨rfl, hmem, hemail⟩
  · intro hall
    have hfind : s.dbUsers.find? (fun u => decide (u.email = email)) = none := by
      refine List.find?_eq_none.mpr ?_
      intro u hu hc
      exact hall u hu (by simpa using hc)
    have hl : login now email s =
        ({ id := "user-" ++ toString now, email := email, name := localPart email },
          { s with dbUsers := s.dbUsers ++
            [{ id := "user-" ++ toString now, email := email, name := localPart email }] }) := by
      unfold login
      rw [hfind]
    rw [hl]
    exact ⟨rfl, rfl, rfl, rfl⟩

/-- Witness for C9: logging in with the demo email returns the stored
user without touching the store; logging in with a fresh email
auto-provisions a user named after the email's local part. -/
theorem login_spec_witness :
    (login 4 "student@univ.ac.kr" initStore).2 = initStore ∧
    (login 4 "new@example.com" initStore).1 =
      { id := "user-4", email := "new@example.com", name := "new" } := by
  refine ⟨((login_spec 4 "student@univ.ac.kr" initStore).1 (by decide)).1, ?_⟩
  have h := ((login_spec 4 "new@example.com" initStore).2 (by decide)).1
  rw [h]
  decide

end SeatRes
